import Mathlib

/-!
Shallow embedding of the `prometheus-service-discovery` registry core
(`src/main.rs`).

The program keeps a service registry in Redis:
* one global set (`SERVICE_KEY`) of registered service keys,
* per service a hash `prometheus_sd:<service>:labels` and a set
  `prometheus_sd:<service>:targets`.

The embedding models exactly that keyspace: a `RegistryState` holds the
service-key set and, for every service name, its labels hash and targets set.
Redis stores no empty collections (removing the last member deletes the key),
so an absent hash/set key and an empty one are both modelled as `[]`; reads
of absent keys return the empty collection, as `HGETALL`/`SMEMBERS` do.

Strings are compared through their character lists (`String.data`): the
cons-list recursions reduce in the kernel, which Lean's byte-position based
`String` primitives do not.  `isCharPref` models Rust `str::starts_with`
and `charListLe` the lexicographic `Ord` used by `Vec<String>::sort`.

Backend failures are modelled by fault injection: an `FConn` is a registry
state together with, per read operation, an optional injected error.
Mutations (the `redis::pipe().atomic()` transactions) are modelled as pure
state transformers applied only where the source calls `pipe.query`.
-/

namespace PromSD

/-- Character-list test modelling Rust `str::starts_with`: `isCharPref p s`
is true when the list `p` is a prefix of the list `s`. -/
def isCharPref : List Char → List Char → Bool
  | [], _ => true
  | _ :: _, [] => false
  | a :: as, b :: bs => if a = b then isCharPref as bs else false

/-- Lexicographic order on character lists (by code point), modelling the
`Ord` instance Rust uses when sorting the service keys. -/
def charListLe : List Char → List Char → Bool
  | [], _ => true
  | _ :: _, [] => false
  | a :: as, b :: bs =>
    if a < b then true
    else if b < a then false
    else charListLe as bs

/-- Lexicographic order on strings, as a proposition. -/
def strLeP (a b : String) : Prop := charListLe a.data b.data = true

instance : DecidableRel strLeP := fun a b => by unfold strLeP; infer_instance

/-- Host component of a target string, modelled from the spec's words: a
target has the form `host:port<metrics-path>`, and its host component is
the part before the first colon.  Used only to state the spec's claim about
unregister-by-host matching; the source code itself never splits the
target string. -/
def hostComponent (t : String) : List Char := t.data.takeWhile (fun c => c != ':')

/-- Backend (Redis) errors: connection or protocol failures.  The payload
is an opaque message. -/
inductive RedisErr where
  | connection (msg : String)
  | protocol (msg : String)
  deriving DecidableEq

/-- Output-file write failure (the `io::Error` wrapped by `ExportError`). -/
structure WriteErr where
  msg : String
  deriving DecidableEq

/-- The `CliError` variants of the source that the registry core can
produce.  (`JsonError` and `InvalidPort` arise only in CLI parsing /
serde encoding, outside the modelled core.) -/
inductive CliError where
  | RedisError (source : RedisErr)
  | ExportError (source : WriteErr)
  | NoSuchService (service : String)
  | NoSuchHost (service : String) (host : String)
  deriving DecidableEq

/-- Mirror of `struct ServiceInstance` (`port` is a `u16` in the source;
its decimal formatting is what enters the target string). -/
structure ServiceInstance where
  service_name : String
  job_name : String
  labels : List (String × String)
  metrics_path : String
  host : String
  port : Nat

/-- Mirror of `struct RegisteredService`: the snapshot entry for one
service.  The Rust `HashMap`/`HashSet` are modelled as lists. -/
structure RegisteredService where
  labels : List (String × String)
  targets : List String
  deriving DecidableEq

/-- The registry keyspace: the global service-key set plus, per service
name, the labels hash and the targets set.  The key schema
`prometheus_sd:<service>:labels` / `...:targets` is injective in the
service name, so the state is indexed by service name directly. -/
structure RegistryState where
  serviceSet : List String
  labels : String → List (String × String)
  targets : String → List String

/-- The empty registry: no services, every per-service key absent. -/
def emptyRegistry : RegistryState :=
  { serviceSet := [], labels := fun _ => [], targets := fun _ => [] }

/-- Redis `SADD`: add a member to a set (no duplicates). -/
def saddList (l : List String) (v : String) : List String :=
  if v ∈ l then l else l ++ [v]

/-- Redis `SREM`: remove a member from a set. -/
def sremList : List String → String → List String
  | [], _ => []
  | x :: rest, v => if x = v then sremList rest v else x :: sremList rest v

/-- Redis `HSET` on an association list: replace the value of an existing
field in place, else append the new binding. -/
def hsetAssoc : List (String × String) → String → String → List (String × String)
  | [], f, v => [(f, v)]
  | (k, w) :: rest, f, v =>
    if k = f then (f, v) :: rest else (k, w) :: hsetAssoc rest f v

/-- Redis `HSET` with multiple field/value pairs (`hset_multiple`),
applied left to right. -/
def hsetMultiple (h : List (String × String)) (kvs : List (String × String)) :
    List (String × String) :=
  kvs.foldl (fun acc q => hsetAssoc acc q.1 q.2) h

/-- Redis `HGET`: the value of a field in a hash, if present. -/
def hget : List (String × String) → String → Option String
  | [], _ => none
  | (k, v) :: rest, f => if k = f then some v else hget rest f

/-- The target string built by `register_instance`:
`format!("{}:{}{}", host, port, metrics_path)`. -/
def targetStr (host : String) (port : Nat) (mpath : String) : String :=
  host ++ ":" ++ toString port ++ mpath

/-- Mirror of `register_instance`: one atomic transaction that adds the
service key to the service set, sets the `job` label, merges the extra
labels when non-empty (later bindings overwrite, as successive `HSET`s do)
and adds the target string to the targets set. -/
def register_instance (st : RegistryState) (inst : ServiceInstance) : RegistryState :=
  let lab0 := hsetAssoc (st.labels inst.service_name) "job" inst.job_name
  let lab1 := if inst.labels.isEmpty then lab0 else hsetMultiple lab0 inst.labels
  { serviceSet := saddList st.serviceSet inst.service_name
    labels := fun k => if k = inst.service_name then lab1 else st.labels k
    targets := fun k =>
      if k = inst.service_name then
        saddList (st.targets k) (targetStr inst.host inst.port inst.metrics_path)
      else st.targets k }

/-- Cascading deletion: `DEL` of the targets key, `DEL` of the labels key
and `SREM` of the service key from the service set, as queued by both
removal branches of `unregister_instance`. -/
def wipeService (st : RegistryState) (s : String) : RegistryState :=
  { serviceSet := sremList st.serviceSet s
    labels := fun k => if k = s then [] else st.labels k
    targets := fun k => if k = s then [] else st.targets k }

/-- Shared tail of `unregister_instance`, after the membership check, given
the targets read from the backend.  With a host argument it looks for the
first target the host string is a prefix of (`t.starts_with(&host)` on the
whole target string), removes it, and cascades when the observed
cardinality was 1; without a host argument it wipes the service.  The
state transformation happens only on the success paths, where the source
runs `pipe.query`; error returns leave the state untouched. -/
def unregisterWithTargets (st : RegistryState) (service_name : String)
    (host : Option String) (service_targets : List String) :
    RegistryState × Option CliError :=
  match host with
  | some h =>
    match service_targets.find? (fun t => isCharPref h.data t.data) with
    | none => (st, some (CliError.NoSuchHost service_name h))
    | some t =>
      let st1 : RegistryState :=
        { st with
          targets := fun k =>
            if k = service_name then sremList (st.targets k) t else st.targets k }
      if service_targets.length = 1 then (wipeService st1 service_name, none)
      else (st1, none)
  | none => (wipeService st service_name, none)

/-- Mirror of `unregister_instance` in the fault-free world: fails with
`NoSuchService` when the service key is not in the service set, then
dispatches on the optional host argument. -/
def unregister_instance (st : RegistryState) (service_name : String)
    (host : Option String) : RegistryState × Option CliError :=
  if service_name ∈ st.serviceSet then
    unregisterWithTargets st service_name host (st.targets service_name)
  else (st, some (CliError.NoSuchService service_name))

/-- A connection with injected backend faults: the underlying registry
state plus, for each read the core performs, an optional error that the
backend returns instead of the value.  `sismemberFault` is for the
`SISMEMBER` membership check of `unregister_instance`,
`serviceSetFault` for the `SMEMBERS` of the global service set, and
`labelsFault`/`targetsFault` for the per-service `HGETALL`/`SMEMBERS`. -/
structure FConn where
  st : RegistryState
  sismemberFault : Option RedisErr
  serviceSetFault : Option RedisErr
  labelsFault : String → Option RedisErr
  targetsFault : String → Option RedisErr

/-- A connection on which every read succeeds. -/
def faultFree (st : RegistryState) : FConn :=
  { st := st, sismemberFault := none, serviceSetFault := none,
    labelsFault := fun _ => none, targetsFault := fun _ => none }

/-- Redis `SISMEMBER SERVICE_KEY service` through a fallible connection. -/
def FConn.sismemberSvc (c : FConn) (s : String) : Except RedisErr Bool :=
  match c.sismemberFault with
  | some e => Except.error e
  | none => Except.ok (decide (s ∈ c.st.serviceSet))

/-- Redis `SMEMBERS SERVICE_KEY` through a fallible connection. -/
def FConn.smembersServiceKeys (c : FConn) : Except RedisErr (List String) :=
  match c.serviceSetFault with
  | some e => Except.error e
  | none => Except.ok c.st.serviceSet

/-- Redis `HGETALL prometheus_sd:<s>:labels` through a fallible
connection; an absent key reads as the empty hash. -/
def FConn.hgetallLabels (c : FConn) (s : String) : Except RedisErr (List (String × String)) :=
  match c.labelsFault s with
  | some e => Except.error e
  | none => Except.ok (c.st.labels s)

/-- Redis `SMEMBERS prometheus_sd:<s>:targets` through a fallible
connection; an absent key reads as the empty set. -/
def FConn.smembersTargets (c : FConn) (s : String) : Except RedisErr (List String) :=
  match c.targetsFault s with
  | some e => Except.error e
  | none => Except.ok (c.st.targets s)

/-- Mirror of `unregister_instance` over a fallible connection.  The
membership check is `con.sismember(..).unwrap_or(false)`: a backend error
there is swallowed and read as `false`.  The subsequent `smembers` uses
`?` and propagates its error. -/
def unregister_instanceF (c : FConn) (service_name : String) (host : Option String) :
    RegistryState × Option CliError :=
  let service_is_registered :=
    match c.sismemberSvc service_name with
    | Except.ok b => b
    | Except.error _ => false
  if service_is_registered then
    match c.smembersTargets service_name with
    | Except.error e => (c.st, some (CliError.RedisError e))
    | Except.ok service_targets =>
      unregisterWithTargets c.st service_name host service_targets
  else (c.st, some (CliError.NoSuchService service_name))

/-- Service keys sorted lexicographically, modelling `service_keys.sort()`. -/
def sortKeys (l : List String) : List String := l.insertionSort strLeP

/-- Mirror of `discover_services` in the fault-free world: service keys
sorted, each packaged with its labels hash and targets set. -/
def discover_services (st : RegistryState) : List RegisteredService :=
  (sortKeys st.serviceSet).map fun key =>
    { labels := st.labels key, targets := st.targets key }

/-- The per-key read loop of `discover_services`: for each service key, in
order, read the labels hash then the targets set; the first failing read
aborts the whole traversal with its error, as collecting into
`Result<Vec<_>>` does. -/
def discoverEach (c : FConn) : List String → Except CliError (List RegisteredService)
  | [] => Except.ok []
  | key :: rest =>
    match c.hgetallLabels key with
    | Except.error e => Except.error (CliError.RedisError e)
    | Except.ok ls =>
      match c.smembersTargets key with
      | Except.error e => Except.error (CliError.RedisError e)
      | Except.ok ts =>
        match discoverEach c rest with
        | Except.error e => Except.error e
        | Except.ok rest' => Except.ok ({ labels := ls, targets := ts } :: rest')

/-- Mirror of `discover_services` over a fallible connection: read the
service set (propagating its error), sort the keys, then run the read
loop. -/
def discover_servicesF (c : FConn) : Except CliError (List RegisteredService) :=
  match c.smembersServiceKeys with
  | Except.error e => Except.error (CliError.RedisError e)
  | Except.ok service_keys => discoverEach c (sortKeys service_keys)

/-- First injected read fault hit by the discover loop on the given key
sequence: for each key in order, the labels read fault, then the targets
read fault. -/
def firstFault (c : FConn) : List String → Option RedisErr
  | [] => none
  | k :: rest =>
    match c.labelsFault k with
    | some e => some e
    | none =>
      match c.targetsFault k with
      | some e => some e
      | none => firstFault c rest

/-- One steady-state iteration of the monitor loop, as delivered by one
notification: `pubsub.get_message()?` (its fault), then
`discover_services(con)?`, then the file write
(`File::create` / `to_writer_pretty`, its fault).  The written file
content is modelled as the snapshot value itself. -/
structure MonitorCycle where
  msgFault : Option RedisErr
  conn : FConn
  writeFault : Option WriteErr

/-- Outcome of one monitor-loop iteration: the snapshot written on
success, or the error the iteration propagates. -/
def cycleOutcome (cyc : MonitorCycle) : Except CliError (List RegisteredService) :=
  match cyc.msgFault with
  | some e => Except.error (CliError.RedisError e)
  | none =>
    match discover_servicesF cyc.conn with
    | Except.error e => Except.error e
    | Except.ok services =>
      match cyc.writeFault with
      | some e => Except.error (CliError.ExportError e)
      | none => Except.ok services

/-- Mirror of the `monitor_registry` loop over a finite trace of delivered
notifications: returns the sequence of file writes performed and, when
some iteration fails, the error with which the loop exits (iterations
after the failing one never run). -/
def monitor_registry : List MonitorCycle → List (List RegisteredService) × Option CliError
  | [] => ([], none)
  | cyc :: rest =>
    match cycleOutcome cyc with
    | Except.error e => ([], some e)
    | Except.ok services =>
      let r := monitor_registry rest
      (services :: r.1, r.2)

/-- Mirror of `main`: a `run_app` error is reported and the process exits
with status 1; otherwise the status is 0. -/
def mainExitCode : Option CliError → Nat
  | none => 0
  | some _ => 1

/-- One registrar operation, as invoked by the CLI. -/
inductive RegistryOp where
  | register (inst : ServiceInstance)
  | unregister (service : String) (host : Option String)

/-- Run a sequence of registrar operations from a state; `none` when some
unregister in the sequence fails (the claims quantify over sequences of
successful operations). -/
def runOps : RegistryState → List RegistryOp → Option RegistryState
  | st, [] => some st
  | st, RegistryOp.register inst :: rest => runOps (register_instance st inst) rest
  | st, RegistryOp.unregister s h :: rest =>
    match unregister_instance st s h with
    | (st', none) => runOps st' rest
    | (_, some _) => none

/-- The registry invariant of the spec: a service key is in the
service set iff its labels hash and targets set exist (are non-empty;
Redis keeps no empty collections) and the targets set is non-empty, and
the labels hash of every registered service has a `job` entry. -/
def regInvariant (st : RegistryState) : Prop :=
  ∀ s, (s ∈ st.serviceSet ↔ (st.labels s ≠ [] ∧ st.targets s ≠ [])) ∧
    (s ∈ st.serviceSet → (hget (st.labels s) "job").isSome = true)

/-- Strengthened induction invariant: the registry invariant plus
duplicate-freedom of every targets set (Redis sets hold no duplicates). -/
def goodState (st : RegistryState) : Prop :=
  regInvariant st ∧ ∀ s, (st.targets s).Nodup

/-! ### String-order facts -/

/-- Strings with equal character lists are equal. -/
theorem stringDataEq : ∀ {a b : String}, a.data = b.data → a = b
  | ⟨_⟩, ⟨_⟩, rfl => rfl

/-- Transitivity of the lexicographic order on character lists. -/
theorem charListLe_trans : ∀ (x y z : List Char),
    charListLe x y = true → charListLe y z = true → charListLe x z = true
  | [], _, _, _, _ => rfl
  | _ :: _, [], _, h1, _ => by simp [charListLe] at h1
  | _ :: _, _ :: _, [], _, h2 => by simp [charListLe] at h2
  | a :: as, b :: bs, c :: cs, h1, h2 => by
    simp only [charListLe] at h1 h2 ⊢
    rcases lt_trichotomy a b with hab | hab | hab
    · rcases lt_trichotomy b c with hbc | hbc | hbc
      · simp [lt_trans hab hbc]
      · subst hbc; simp [hab]
      · rw [if_neg (asymm hbc), if_pos hbc] at h2; simp at h2
    · subst hab
      rw [if_neg (lt_irrefl a), if_neg (lt_irrefl a)] at h1
      rcases lt_trichotomy a c with hac | hac | hac
      · simp [hac]
      · subst hac
        rw [if_neg (lt_irrefl a), if_neg (lt_irrefl a)] at h2 ⊢
        exact charListLe_trans as bs cs h1 h2
      · rw [if_neg (asymm hac), if_pos hac] at h2; simp at h2
    · rw [if_neg (asymm hab), if_pos hab] at h1; simp at h1

/-- Totality of the lexicographic order on character lists. -/
theorem charListLe_total : ∀ (x y : List Char),
    charListLe x y = true ∨ charListLe y x = true
  | [], _ => Or.inl rfl
  | _ :: _, [] => Or.inr rfl
  | a :: as, b :: bs => by
    simp only [charListLe]
    rcases lt_trichotomy a b with h | h | h
    · left; simp [h]
    · subst h
      simp only [if_neg (lt_irrefl a)]
      exact charListLe_total as bs
    · right; simp [h]

/-- Antisymmetry of the lexicographic order on character lists. -/
theorem charListLe_antisymm : ∀ (x y : List Char),
    charListLe x y = true → charListLe y x = true → x = y
  | [], [], _, _ => rfl
  | [], _ :: _, _, h2 => by simp [charListLe] at h2
  | _ :: _, [], h1, _ => by simp [charListLe] at h1
  | a :: as, b :: bs, h1, h2 => by
    simp only [charListLe] at h1 h2
    rcases lt_trichotomy a b with h | h | h
    · rw [if_neg (asymm h), if_pos h] at h2; simp at h2
    · subst h
      rw [if_neg (lt_irrefl a), if_neg (lt_irrefl a)] at h1 h2
      rw [charListLe_antisymm as bs h1 h2]
    · rw [if_neg (asymm h), if_pos h] at h1; simp at h1

instance : IsTrans String strLeP :=
  ⟨fun a b c h1 h2 => charListLe_trans a.data b.data c.data h1 h2⟩

instance : IsTotal String strLeP :=
  ⟨fun a b => charListLe_total a.data b.data⟩

instance : IsAntisymm String strLeP :=
  ⟨fun a b h1 h2 => stringDataEq (charListLe_antisymm a.data b.data h1 h2)⟩

/-! ### Facts about the modelled Redis set and hash operations -/

/-- Membership after `SADD`. -/
theorem mem_saddList {a v : String} {l : List String} :
    a ∈ saddList l v ↔ a ∈ l ∨ a = v := by
  unfold saddList
  by_cases hv : v ∈ l
  · rw [if_pos hv]
    exact ⟨Or.inl, fun h => h.elim id (fun he => he ▸ hv)⟩
  · rw [if_neg hv]
    simp

/-- `SADD` preserves duplicate-freedom. -/
theorem nodup_saddList {l : List String} {v : String} (h : l.Nodup) :
    (saddList l v).Nodup := by
  unfold saddList
  by_cases hv : v ∈ l
  · rwa [if_pos hv]
  · rw [if_neg hv]
    simp [List.nodup_append, h, hv]

/-- `SADD` never produces the empty set. -/
theorem saddList_ne_nil {l : List String} {v : String} : saddList l v ≠ [] := by
  unfold saddList
  split
  · rename_i hv
    exact List.ne_nil_of_mem hv
  · simp

/-- Membership after `SREM`. -/
theorem mem_sremList {a v : String} {l : List String} :
    a ∈ sremList l v ↔ a ∈ l ∧ a ≠ v := by
  induction l with
  | nil => simp [sremList]
  | cons x rest ih =>
    simp only [sremList]
    split
    · rename_i hx
      subst hx
      rw [ih]
      simp only [List.mem_cons]
      constructor
      · rintro ⟨h, hne⟩
        exact ⟨Or.inr h, hne⟩
      · rintro ⟨h | h, hne⟩
        · exact absurd h hne
        · exact ⟨h, hne⟩
    · rename_i hx
      simp only [List.mem_cons, ih]
      constructor
      · rintro (rfl | ⟨h, hne⟩)
        · exact ⟨Or.inl rfl, hx⟩
        · exact ⟨Or.inr h, hne⟩
      · rintro ⟨rfl | h, hne⟩
        · exact Or.inl rfl
        · exact Or.inr ⟨h, hne⟩

/-- `SREM` preserves duplicate-freedom. -/
theorem nodup_sremList {v : String} : ∀ {l : List String}, l.Nodup → (sremList l v).Nodup
  | [], _ => by simp [sremList]
  | x :: rest, h => by
    rcases List.nodup_cons.mp h with ⟨hx, hrest⟩
    simp only [sremList]
    split
    · exact nodup_sremList hrest
    · exact List.nodup_cons.mpr ⟨fun hmem => hx (mem_sremList.mp hmem).1, nodup_sremList hrest⟩

/-- `SREM` of an absent member is the identity. -/
theorem sremList_of_not_mem {v : String} : ∀ {l : List String}, v ∉ l → sremList l v = l
  | [], _ => rfl
  | x :: rest, hv => by
    have hxv : ¬ x = v := fun h => hv (h ▸ List.mem_cons_self x rest)
    simp only [sremList, if_neg hxv]
    rw [sremList_of_not_mem (fun h => hv (List.mem_cons_of_mem x h))]

/-- On a duplicate-free set, `SREM` of a member shrinks the cardinality by
exactly one. -/
theorem length_sremList {t : String} : ∀ {l : List String}, l.Nodup → t ∈ l →
    (sremList l t).length + 1 = l.length
  | [], _, ht => absurd ht (List.not_mem_nil t)
  | x :: rest, h, ht => by
    rcases List.nodup_cons.mp h with ⟨hx, hrest⟩
    simp only [sremList]
    split
    · rename_i hxt
      subst hxt
      rw [sremList_of_not_mem hx]
      simp
    · rename_i hxt
      have ht' : t ∈ rest := by
        rcases List.mem_cons.mp ht with rfl | h'
        · exact absurd rfl hxt
        · exact h'
      simp only [List.length_cons]
      rw [← length_sremList hrest ht']

/-- On a duplicate-free set of cardinality at least two, `SREM` of one
member leaves a non-empty set. -/
theorem sremList_ne_nil {t : String} {l : List String} (h : l.Nodup) (ht : t ∈ l)
    (hlen : 2 ≤ l.length) : sremList l t ≠ [] := by
  have hl := length_sremList h ht
  intro hnil
  rw [hnil] at hl
  simp at hl
  omega

/-- Field lookup after a single `HSET`. -/
theorem hget_hsetAssoc {k f v : String} : ∀ {h : List (String × String)},
    hget (hsetAssoc h f v) k = if k = f then some v else hget h k
  | [] => by
    by_cases h : k = f
    · subst h
      simp [hsetAssoc, hget]
    · simp [hsetAssoc, hget, h, Ne.symm h]
  | (a, b) :: rest => by
    simp only [hsetAssoc]
    split
    · rename_i haf
      subst haf
      by_cases hk : k = a
      · simp [hget, hk]
      · simp [hget, hk, Ne.symm hk]
    · rename_i haf
      by_cases hk : k = a
      · have hkf : ¬ k = f := fun hf => haf ((hk.symm.trans hf))
        simp [hget, hk, hkf, haf]
      · simp only [hget, if_neg (Ne.symm hk)]
        exact hget_hsetAssoc

/-- Fields not bound by any pair of `hset_multiple` are unchanged by it. -/
theorem hget_hsetMultiple_notin {k : String} : ∀ (kvs : List (String × String))
    (h : List (String × String)), (∀ q ∈ kvs, q.1 ≠ k) →
    hget (hsetMultiple h kvs) k = hget h k
  | [], _, _ => rfl
  | q :: rest, h, hk => by
    have h1 : hsetMultiple h (q :: rest) = hsetMultiple (hsetAssoc h q.1 q.2) rest := rfl
    rw [h1, hget_hsetMultiple_notin rest _ (fun r hr => hk r (List.mem_cons_of_mem _ hr)),
      hget_hsetAssoc, if_neg (fun hkq => (hk q (List.mem_cons_self q rest)) hkq.symm)]

/-- A field present before `hset_multiple` is still present after it. -/
theorem isSome_hget_hsetMultiple {k : String} : ∀ (kvs : List (String × String))
    (h : List (String × String)), (hget h k).isSome = true →
    (hget (hsetMultiple h kvs) k).isSome = true
  | [], _, hs => hs
  | q :: rest, h, hs => by
    have h1 : hsetMultiple h (q :: rest) = hsetMultiple (hsetAssoc h q.1 q.2) rest := rfl
    rw [h1]
    apply isSome_hget_hsetMultiple rest
    rw [hget_hsetAssoc]
    split
    · rfl
    · exact hs

/-- A hash with a present field is non-empty. -/
theorem ne_nil_of_hget_isSome {h : List (String × String)} {k : String}
    (hs : (hget h k).isSome = true) : h ≠ [] := by
  intro hnil
  rw [hnil] at hs
  simp [hget] at hs

/-! ### Unfolding lemmas for the registrar operations -/

theorem register_serviceSet (st : RegistryState) (inst : ServiceInstance) :
    (register_instance st inst).serviceSet = saddList st.serviceSet inst.service_name := rfl

theorem register_targets (st : RegistryState) (inst : ServiceInstance) (k : String) :
    (register_instance st inst).targets k =
      if k = inst.service_name then
        saddList (st.targets k) (targetStr inst.host inst.port inst.metrics_path)
      else st.targets k := rfl

theorem register_labels (st : RegistryState) (inst : ServiceInstance) (k : String) :
    (register_instance st inst).labels k =
      if k = inst.service_name then
        (if inst.labels.isEmpty then
          hsetAssoc (st.labels inst.service_name) "job" inst.job_name
         else hsetMultiple (hsetAssoc (st.labels inst.service_name) "job" inst.job_name)
           inst.labels)
      else st.labels k := rfl

theorem wipe_serviceSet (st : RegistryState) (s : String) :
    (wipeService st s).serviceSet = sremList st.serviceSet s := rfl

theorem wipe_labels (st : RegistryState) (s k : String) :
    (wipeService st s).labels k = if k = s then [] else st.labels k := rfl

theorem wipe_targets (st : RegistryState) (s k : String) :
    (wipeService st s).targets k = if k = s then [] else st.targets k := rfl

/-- After registration, the `job` field of the service's labels hash is
present; and when none of the extra labels rebinds `job`, it holds exactly
the job name. -/
theorem register_job (st : RegistryState) (inst : ServiceInstance) :
    (hget ((register_instance st inst).labels inst.service_name) "job").isSome = true ∧
    ((∀ q ∈ inst.labels, q.1 ≠ "job") →
      hget ((register_instance st inst).labels inst.service_name) "job" =
        some inst.job_name) := by
  rw [register_labels, if_pos rfl]
  have h0 : hget (hsetAssoc (st.labels inst.service_name) "job" inst.job_name) "job" =
      some inst.job_name := by rw [hget_hsetAssoc, if_pos rfl]
  constructor
  · split
    · rw [h0]
      rfl
    · exact isSome_hget_hsetMultiple _ _ (by rw [h0]; rfl)
  · intro hnj
    split
    · exact h0
    · rw [hget_hsetMultiple_notin _ _ (fun q hq => hnj q hq), h0]

/-! ### Facts about the sorted key sequence -/

theorem sortKeys_sorted (l : List String) : List.Sorted strLeP (sortKeys l) :=
  List.sorted_insertionSort strLeP l

theorem sortKeys_perm (l : List String) : List.Perm (sortKeys l) l :=
  List.perm_insertionSort strLeP l

theorem mem_sortKeys {a : String} {l : List String} : a ∈ sortKeys l ↔ a ∈ l :=
  (sortKeys_perm l).mem_iff

/-- Sorting is canonical: key sets that are permutations of one another
sort to the same sequence. -/
theorem sortKeys_eq_of_perm {l₁ l₂ : List String} (h : List.Perm l₁ l₂) :
    sortKeys l₁ = sortKeys l₂ :=
  List.eq_of_perm_of_sorted ((sortKeys_perm l₁).trans (h.trans (sortKeys_perm l₂).symm))
    (sortKeys_sorted l₁) (sortKeys_sorted l₂)

/-! ### Characterization of the fallible discover pipeline -/

/-- The per-key read loop returns the first injected fault as its error,
and the full list of snapshot entries when there is none. -/
theorem discoverEach_eq (c : FConn) : ∀ (l : List String),
    discoverEach c l =
      match firstFault c l with
      | some e => Except.error (CliError.RedisError e)
      | none => Except.ok (l.map fun k =>
          { labels := c.st.labels k, targets := c.st.targets k : RegisteredService })
  | [] => rfl
  | k :: rest => by
    cases hl : c.labelsFault k with
    | some e => simp [discoverEach, FConn.hgetallLabels, firstFault, hl]
    | none =>
      cases ht : c.targetsFault k with
      | some e =>
        simp [discoverEach, FConn.hgetallLabels, FConn.smembersTargets, firstFault, hl, ht]
      | none =>
        simp only [discoverEach, FConn.hgetallLabels, FConn.smembersTargets, firstFault, hl, ht]
        rw [discoverEach_eq c rest]
        cases firstFault c rest <;> simp

/-- Complete characterization of `discover_servicesF`: the service-set
read fault aborts with its error; otherwise the first per-key read fault
in sorted key order aborts with its error; otherwise the full fault-free
snapshot is returned. -/
theorem discoverF_characterization (c : FConn) :
    discover_servicesF c =
      match c.serviceSetFault with
      | some e => Except.error (CliError.RedisError e)
      | none =>
        match firstFault c (sortKeys c.st.serviceSet) with
        | some e => Except.error (CliError.RedisError e)
        | none => Except.ok (discover_services c.st) := by
  cases hs : c.serviceSetFault with
  | some e => simp [discover_servicesF, FConn.smembersServiceKeys, hs]
  | none =>
    simp only [discover_servicesF, FConn.smembersServiceKeys, hs]
    rw [discoverEach_eq]
    cases firstFault c (sortKeys c.st.serviceSet) <;> rfl

/-- A fault-free connection injects no fault anywhere in the read loop. -/
theorem firstFault_faultFree (st : RegistryState) : ∀ (l : List String),
    firstFault (faultFree st) l = none
  | [] => rfl
  | k :: rest => by
    have h := firstFault_faultFree st rest
    simp only [firstFault]
    have hl : (faultFree st).labelsFault k = none := rfl
    have ht : (faultFree st).targetsFault k = none := rfl
    rw [hl, ht]
    exact h

/-- On a fault-free connection the fallible discover agrees with the pure
snapshot. -/
theorem discoverF_faultFree (st : RegistryState) :
    discover_servicesF (faultFree st) = Except.ok (discover_services st) := by
  have h1 : (faultFree st).serviceSetFault = none := rfl
  rw [discoverF_characterization, h1, firstFault_faultFree]
  rfl

/-! ### Preservation of the registry invariant -/

/-- The empty registry satisfies the strengthened invariant. -/
theorem good_empty : goodState emptyRegistry := by
  refine ⟨fun s => ?_, fun s => ?_⟩
  · simp [emptyRegistry, regInvariant, hget]
  · simp [emptyRegistry]

/-- Wiping a service from a state that agrees with a good state outside
the wiped service yields a good state. -/
theorem good_wipe_general {st0 st : RegistryState} {s : String}
    (hset : st0.serviceSet = st.serviceSet)
    (hlab : ∀ k, k ≠ s → st0.labels k = st.labels k)
    (htgt : ∀ k, k ≠ s → st0.targets k = st.targets k)
    (hg : goodState st) : goodState (wipeService st0 s) := by
  obtain ⟨hinv, hnd⟩ := hg
  refine ⟨fun k => ?_, fun k => ?_⟩
  · rw [wipe_serviceSet, wipe_labels, wipe_targets, hset]
    by_cases hk : k = s
    · simp [hk, mem_sremList]
    · rw [if_neg hk, if_neg hk, hlab k hk, htgt k hk]
      simpa [mem_sremList, hk] using hinv k
  · rw [wipe_targets]
    by_cases hk : k = s
    · simp [hk]
    · rw [if_neg hk, htgt k hk]
      exact hnd k

/-- Registration preserves the strengthened invariant. -/
theorem good_register {st : RegistryState} (inst : ServiceInstance)
    (hg : goodState st) : goodState (register_instance st inst) := by
  obtain ⟨hinv, hnd⟩ := hg
  have hjob := (register_job st inst).1
  rw [register_labels, if_pos rfl] at hjob
  refine ⟨fun k => ?_, fun k => ?_⟩
  · rw [register_serviceSet, register_labels, register_targets]
    by_cases hk : k = inst.service_name
    · rw [if_pos hk, if_pos hk]
      subst hk
      refine ⟨iff_of_true (mem_saddList.mpr (Or.inr rfl))
        ⟨ne_nil_of_hget_isSome hjob, saddList_ne_nil⟩, fun _ => hjob⟩
    · rw [if_neg hk, if_neg hk]
      simpa [mem_saddList, hk] using hinv k
  · rw [register_targets]
    by_cases hk : k = inst.service_name
    · rw [if_pos hk]
      exact nodup_saddList (hnd k)
    · rw [if_neg hk]
      exact hnd k

/-- A successful unregister preserves the strengthened invariant. -/
theorem good_unregister {st st' : RegistryState} {s : String} {h : Option String}
    (hg : goodState st) (hok : unregister_instance st s h = (st', none)) :
    goodState st' := by
  obtain ⟨hinv, hnd⟩ := hg
  by_cases hs : s ∈ st.serviceSet
  · rw [unregister_instance, if_pos hs] at hok
    cases h with
    | none =>
      have hst : wipeService st s = st' := congrArg Prod.fst hok
      exact hst ▸ good_wipe_general rfl (fun _ _ => rfl) (fun _ _ => rfl) ⟨hinv, hnd⟩
    | some p =>
      simp only [unregisterWithTargets] at hok
      cases hfind : (st.targets s).find? (fun t => isCharPref p.data t.data) with
      | none =>
        simp only [hfind] at hok
        exact absurd (congrArg Prod.snd hok) (by simp)
      | some t =>
        simp only [hfind] at hok
        have htmem : t ∈ st.targets s := List.mem_of_find?_eq_some hfind
        by_cases hlen : (st.targets s).length = 1
        · rw [if_pos hlen] at hok
          have hst : wipeService
              { st with targets := fun k =>
                  if k = s then sremList (st.targets k) t else st.targets k } s = st' :=
            congrArg Prod.fst hok
          refine hst ▸ @good_wipe_general
            { st with targets := fun k =>
                if k = s then sremList (st.targets k) t else st.targets k }
            st s rfl (fun _ _ => rfl) (fun k hk => if_neg hk) ⟨hinv, hnd⟩
        · rw [if_neg hlen] at hok
          have hst : ({ st with targets := fun k =>
              if k = s then sremList (st.targets k) t else st.targets k } :
              RegistryState) = st' :=
            congrArg Prod.fst hok
          have hlen2 : 2 ≤ (st.targets s).length := by
            have hne : st.targets s ≠ [] := ((hinv s).1.mp hs).2
            have hpos : 0 < (st.targets s).length := List.length_pos.mpr hne
            omega
          refine hst ▸ ⟨fun k => ?_, fun k => ?_⟩
          · show (k ∈ st.serviceSet ↔ st.labels k ≠ [] ∧
              (if k = s then sremList (st.targets k) t else st.targets k) ≠ []) ∧
              (k ∈ st.serviceSet → (hget (st.labels k) "job").isSome = true)
            by_cases hk : k = s
            · subst hk
              rw [if_pos rfl]
              refine ⟨iff_of_true hs ⟨(ne_nil_of_hget_isSome ((hinv k).2 hs)),
                sremList_ne_nil (hnd k) htmem hlen2⟩, fun _ => (hinv k).2 hs⟩
            · rw [if_neg hk]
              exact hinv k
          · show List.Nodup (if k = s then sremList (st.targets k) t else st.targets k)
            by_cases hk : k = s
            · rw [if_pos hk]
              exact nodup_sremList (hnd k)
            · rw [if_neg hk]
              exact hnd k
  · rw [unregister_instance, if_neg hs] at hok
    exact absurd (congrArg Prod.snd hok) (by simp)

/-- Every state reached from a good state by a successful operation
sequence is good. -/
theorem runOps_good : ∀ (ops : List RegistryOp) (st st' : RegistryState),
    goodState st → runOps st ops = some st' → goodState st'
  | [], st, st', hg, hrun => by
    simp only [runOps, Option.some.injEq] at hrun
    exact hrun ▸ hg
  | RegistryOp.register inst :: rest, st, st', hg, hrun =>
    runOps_good rest _ st' (good_register inst hg) hrun
  | RegistryOp.unregister s h :: rest, st, st', hg, hrun => by
    simp only [runOps] at hrun
    cases hu : unregister_instance st s h with
    | mk st1 err =>
      rw [hu] at hrun
      cases err with
      | none => exact runOps_good rest st1 st' (good_unregister hg hu) hrun
      | some e => simp at hrun

/-! ### Case analysis of `unregister_instance` -/

/-- Exhaustive case analysis of `unregister_instance`: the missing-service
failure, the wholesale wipe, the no-matching-target failure, the
single-target cascade, and the plain target removal.  Both failure cases
return the state unchanged. -/
theorem unregister_cases (st : RegistryState) (s : String) (hopt : Option String) :
    (s ∉ st.serviceSet ∧
      unregister_instance st s hopt = (st, some (CliError.NoSuchService s))) ∨
    (s ∈ st.serviceSet ∧ hopt = none ∧
      unregister_instance st s hopt = (wipeService st s, none)) ∨
    (∃ p, s ∈ st.serviceSet ∧ hopt = some p ∧
      (st.targets s).find? (fun t => isCharPref p.data t.data) = none ∧
      unregister_instance st s hopt = (st, some (CliError.NoSuchHost s p))) ∨
    (∃ p t, s ∈ st.serviceSet ∧ hopt = some p ∧
      (st.targets s).find? (fun t => isCharPref p.data t.data) = some t ∧
      (st.targets s).length = 1 ∧
      unregister_instance st s hopt =
        (wipeService
          { st with targets := fun k =>
              if k = s then sremList (st.targets k) t else st.targets k } s, none)) ∨
    (∃ p t, s ∈ st.serviceSet ∧ hopt = some p ∧
      (st.targets s).find? (fun t => isCharPref p.data t.data) = some t ∧
      (st.targets s).length ≠ 1 ∧
      unregister_instance st s hopt =
        ({ st with targets := fun k =>
            if k = s then sremList (st.targets k) t else st.targets k }, none)) := by
  by_cases hs : s ∈ st.serviceSet
  · cases hopt with
    | none =>
      refine Or.inr (Or.inl ⟨hs, rfl, ?_⟩)
      rw [unregister_instance, if_pos hs]
      rfl
    | some p =>
      cases hfind : (st.targets s).find? (fun t => isCharPref p.data t.data) with
      | none =>
        refine Or.inr (Or.inr (Or.inl ⟨p, hs, rfl, hfind, ?_⟩))
        rw [unregister_instance, if_pos hs]
        simp only [unregisterWithTargets, hfind]
      | some t =>
        by_cases hlen : (st.targets s).length = 1
        · refine Or.inr (Or.inr (Or.inr (Or.inl ⟨p, t, hs, rfl, hfind, hlen, ?_⟩)))
          rw [unregister_instance, if_pos hs]
          simp only [unregisterWithTargets, hfind, if_pos hlen]
        · refine Or.inr (Or.inr (Or.inr (Or.inr ⟨p, t, hs, rfl, hfind, hlen, ?_⟩)))
          rw [unregister_instance, if_pos hs]
          simp only [unregisterWithTargets, hfind, if_neg hlen]
  · refine Or.inl ⟨hs, ?_⟩
    rw [unregister_instance, if_neg hs]

/-! ### Concrete material used by witnesses and counterexamples -/

/-- A concrete service instance without extra labels. -/
def instW : ServiceInstance :=
  { service_name := "web", job_name := "webjob", labels := [],
    metrics_path := "/metrics", host := "host1", port := 8080 }

/-- A second instance of the same service on another host. -/
def instW2 : ServiceInstance :=
  { service_name := "web", job_name := "webjob", labels := [],
    metrics_path := "/metrics", host := "host2", port := 8080 }

/-- Registry holding the single instance `instW`. -/
def stW : RegistryState := register_instance emptyRegistry instW

/-- Registry holding two instances of the service `web`. -/
def stW2 : RegistryState := register_instance stW instW2

/-- Instance whose extra labels rebind the `job` key. -/
def instC1 : ServiceInstance :=
  { service_name := "web", job_name := "webjob", labels := [("job", "other")],
    metrics_path := "/metrics", host := "host1", port := 8080 }

/-! ### Claims -/

/-- C1, counterexample: registering an instance whose extra labels contain
the key `job` (a valid instance; every field is well-formed) yields a
discover entry whose `job` label is the extra-label value, not the job
name `webjob`.  The claim asserts `job` is mapped to the job name for
every valid instance; here the only entry maps it to `other`. -/
theorem C1_counterexample :
    discover_services (register_instance emptyRegistry instC1) =
      [{ labels := [("job", "other")], targets := ["host1:8080/metrics"] }] ∧
    hget [("job", "other")] "job" ≠ some "webjob" := by
  constructor
  · decide
  · decide

/-- C1 (amended): after a successful register, the discover output of the
new state contains the entry for the registered service; its targets set
contains the constructed target string `host:port<metrics_path>`; its
labels map contains the key `job`; and whenever the extra labels do not
rebind `job`, that key is mapped to the job name. -/
theorem C1_register_discover (st : RegistryState) (inst : ServiceInstance) :
    ({ labels := (register_instance st inst).labels inst.service_name,
       targets := (register_instance st inst).targets inst.service_name } :
        RegisteredService) ∈ discover_services (register_instance st inst) ∧
    targetStr inst.host inst.port inst.metrics_path ∈
      (register_instance st inst).targets inst.service_name ∧
    (hget ((register_instance st inst).labels inst.service_name) "job").isSome = true ∧
    ((∀ q ∈ inst.labels, q.1 ≠ "job") →
      hget ((register_instance st inst).labels inst.service_name) "job" =
        some inst.job_name) := by
  refine ⟨?_, ?_, (register_job st inst).1, (register_job st inst).2⟩
  · have hmem : inst.service_name ∈ (register_instance st inst).serviceSet := by
      rw [register_serviceSet]
      exact mem_saddList.mpr (Or.inr rfl)
    exact List.mem_map_of_mem _ (mem_sortKeys.mpr hmem)
  · rw [register_targets, if_pos rfl]
    exact mem_saddList.mpr (Or.inr rfl)

/-- C1 witness: for the concrete instance `instW` (no extra labels) the
amended claim instantiates to `job` being mapped to `webjob`. -/
theorem C1_witness :
    hget ((register_instance emptyRegistry instW).labels "web") "job" = some "webjob" :=
  (C1_register_discover emptyRegistry instW).2.2.2 (by decide)

/-- C2: starting from the empty registry, every sequence of successful
register and unregister operations leads to a state satisfying the
registry invariant: a service key is in the service set iff its labels
hash and targets set exist (are non-empty) and the targets set is
non-empty, and every registered service's labels hash has a `job`
entry. -/
theorem C2_invariant (ops : List RegistryOp) (st' : RegistryState)
    (h : runOps emptyRegistry ops = some st') : regInvariant st' :=
  (runOps_good ops emptyRegistry st' good_empty h).1

/-- C2 witness: the invariant after the concrete successful sequence
consisting of one registration. -/
theorem C2_witness : regInvariant (register_instance emptyRegistry instW) :=
  C2_invariant [RegistryOp.register instW] (register_instance emptyRegistry instW) rfl

/-- C3: for every registered service, (a) when the targets set held
exactly one target and that sole target matches the prefix,
unregister-by-host removes, in the one committed transaction, the target,
the targets-set key, the labels key and the service-set membership; and
(b) unregister without a host removes the targets key, the labels key and
the membership unconditionally — for any registered service, whatever its
targets set holds. -/
theorem C3_cascade (st : RegistryState) (s p t : String)
    (hs : s ∈ st.serviceSet) :
    (st.targets s = [t] → isCharPref p.data t.data = true →
      (unregister_instance st s (some p)).2 = none ∧
      (unregister_instance st s (some p)).1.targets s = [] ∧
      (unregister_instance st s (some p)).1.labels s = [] ∧
      s ∉ (unregister_instance st s (some p)).1.serviceSet) ∧
    ((unregister_instance st s none).2 = none ∧
      (unregister_instance st s none).1.targets s = [] ∧
      (unregister_instance st s none).1.labels s = [] ∧
      s ∉ (unregister_instance st s none).1.serviceSet) := by
  have hu2 : unregister_instance st s none = (wipeService st s, none) := by
    rw [unregister_instance, if_pos hs]
    rfl
  constructor
  · intro ht hm
    have hfind2 : List.find? (fun u => isCharPref p.data u.data) [t] = some t := by
      simp [List.find?, hm]
    have hu : unregister_instance st s (some p) =
        (wipeService
          { st with targets := fun k =>
              if k = s then sremList (st.targets k) t else st.targets k } s, none) := by
      rw [unregister_instance, if_pos hs]
      simp only [unregisterWithTargets, ht, hfind2, List.length_singleton,
        eq_self_iff_true, if_true]
    rw [hu]
    refine ⟨rfl, ?_, ?_, ?_⟩
    · rw [wipe_targets, if_pos rfl]
    · rw [wipe_labels, if_pos rfl]
    · rw [wipe_serviceSet]
      simp [mem_sremList]
  · rw [hu2]
    refine ⟨rfl, ?_, ?_, ?_⟩
    · rw [wipe_targets, if_pos rfl]
    · rw [wipe_labels, if_pos rfl]
    · rw [wipe_serviceSet]
      simp [mem_sremList]

/-- C3 witness: cascading removal of the sole instance of the service
`web` in `stW`, and wholesale no-host removal of the same service in the
two-target state `stW2`, where the wholesale clause applies with a
targets set that is not a singleton. -/
theorem C3_witness :
    (unregister_instance stW "web" (some "host1")).2 = none ∧
    "web" ∉ (unregister_instance stW "web" (some "host1")).1.serviceSet ∧
    (unregister_instance stW2 "web" none).2 = none ∧
    (unregister_instance stW2 "web" none).1.targets "web" = [] ∧
    "web" ∉ (unregister_instance stW2 "web" none).1.serviceSet := by
  have h1 := C3_cascade stW "web" "host1" "host1:8080/metrics" (by decide)
  have h2 := C3_cascade stW2 "web" "host1" "host1:8080/metrics" (by decide)
  have hc := h1.1 (by decide) (by decide)
  exact ⟨hc.1, hc.2.2.2, h2.2.1, h2.2.2.1, h2.2.2.2.2⟩

/-- C4, counterexample: the code matches the host argument as a prefix of
the whole target string, not of its host component.  With the single
target `host1:8080/metrics` and the argument `host1:80`, no host
component starts with `host1:80` (the host component is `host1`), so the
claim demands a `NoSuchHost` failure — but the call succeeds. -/
theorem C4_counterexample :
    "web" ∈ stW.serviceSet ∧
    stW.targets "web" = ["host1:8080/metrics"] ∧
    isCharPref "host1:80".data (hostComponent "host1:8080/metrics") = false ∧
    (unregister_instance stW "web" (some "host1:80")).2 = none := by
  refine ⟨by decide, by decide, by decide, by decide⟩

/-- C4 (amended): unregister fails with `NoSuchService` iff the service
key is absent from the service set; for a present service with a host
argument it fails with `NoSuchHost` iff no target string starts with the
argument (lexical prefix on the whole target string); and every failure
leaves the registry state unchanged. -/
theorem C4_errors (st : RegistryState) (s p : String) (hopt : Option String) :
    ((unregister_instance st s hopt).2 = some (CliError.NoSuchService s) ↔
      s ∉ st.serviceSet) ∧
    (s ∈ st.serviceSet →
      ((unregister_instance st s (some p)).2 = some (CliError.NoSuchHost s p) ↔
        ∀ t ∈ st.targets s, isCharPref p.data t.data = false)) ∧
    (∀ e, (unregister_instance st s hopt).2 = some e →
      (unregister_instance st s hopt).1 = st) := by
  refine ⟨?_, fun hs => ?_, ?_⟩
  · rcases unregister_cases st s hopt with ⟨hs, he⟩ | ⟨hs, -, he⟩ |
      ⟨q, hs, -, -, he⟩ | ⟨q, u, hs, -, -, -, he⟩ | ⟨q, u, hs, -, -, -, he⟩ <;>
      rw [he] <;> simp [hs]
  · rcases unregister_cases st s (some p) with ⟨hs2, he⟩ | ⟨-, hn, -⟩ |
      ⟨q, -, hq, hf, he⟩ | ⟨q, u, -, hq, hf, -, he⟩ | ⟨q, u, -, hq, hf, -, he⟩
    · exact absurd hs hs2
    · exact absurd hn (by simp)
    · cases Option.some.injEq p q ▸ hq with
      | refl =>
        rw [he]
        refine iff_of_true rfl (fun t ht => ?_)
        have := List.find?_eq_none.mp (by exact_mod_cast hf) t ht
        simp at this
        exact this
    · cases Option.some.injEq p q ▸ hq with
      | refl =>
        rw [he]
        refine iff_of_false (by simp) (fun hall => ?_)
        have h1 := List.find?_some hf
        have h2 := List.mem_of_find?_eq_some hf
        rw [hall u h2] at h1
        exact Bool.false_ne_true h1
    · cases Option.some.injEq p q ▸ hq with
      | refl =>
        rw [he]
        refine iff_of_false (by simp) (fun hall => ?_)
        have h1 := List.find?_some hf
        have h2 := List.mem_of_find?_eq_some hf
        rw [hall u h2] at h1
        exact Bool.false_ne_true h1
  · intro e he
    rcases unregister_cases st s hopt with ⟨hs, hr⟩ | ⟨hs, -, hr⟩ |
      ⟨q, hs, -, -, hr⟩ | ⟨q, u, hs, -, -, -, hr⟩ | ⟨q, u, hs, -, -, -, hr⟩ <;>
      rw [hr] at he ⊢ <;> first
      | rfl
      | simp at he

/-- C4 witness: unregistering an unknown service key fails with
`NoSuchService`. -/
theorem C4_witness :
    (unregister_instance emptyRegistry "nosuch" none).2 =
      some (CliError.NoSuchService "nosuch") :=
  (C4_errors emptyRegistry "nosuch" "x" none).1.mpr (by decide)

/-- Connection whose membership check fails, over a state that does
contain the service `web`. -/
def cC5 : FConn :=
  { st := stW, sismemberFault := some (RedisErr.connection "backend down"),
    serviceSetFault := none, labelsFault := fun _ => none, targetsFault := fun _ => none }

/-- C5, counterexample: a backend error during the `SISMEMBER` membership
check of unregister is not propagated — `unwrap_or(false)` swallows it and
the call reports `NoSuchService` for a service that is in the service
set. -/
theorem C5_counterexample :
    "web" ∈ cC5.st.serviceSet ∧
    cC5.sismemberFault = some (RedisErr.connection "backend down") ∧
    (unregister_instanceF cC5 "web" none).2 = some (CliError.NoSuchService "web") ∧
    (unregister_instanceF cC5 "web" none).2 ≠
      some (CliError.RedisError (RedisErr.connection "backend down")) := by
  refine ⟨by decide, rfl, by decide, by decide⟩

/-- C5 (amended): whenever the backend fails the membership read of
unregister, the error is swallowed: membership reads as false and the
operation fails with `NoSuchService`, the state untouched; the backend
error is never propagated. -/
theorem C5_membership_error_swallowed (c : FConn) (s : String) (hopt : Option String)
    (e : RedisErr) (he : c.sismemberFault = some e) :
    unregister_instanceF c s hopt = (c.st, some (CliError.NoSuchService s)) := by
  simp [unregister_instanceF, FConn.sismemberSvc, he]

/-- C5 witness: the amended claim at the concrete faulty connection. -/
theorem C5_witness :
    unregister_instanceF cC5 "web" none = (stW, some (CliError.NoSuchService "web")) :=
  C5_membership_error_swallowed cC5 "web" none (RedisErr.connection "backend down") rfl

/-- The file content written by a cycle whose outcome is a success (the
`[]` default is never reached on such cycles). -/
def writeOf (cyc : MonitorCycle) : List RegisteredService :=
  match cycleOutcome cyc with
  | Except.ok s => s
  | Except.error _ => []

/-- A trace of fault-free cycles performs one write per notification. -/
theorem monitor_ok_of_all_ok : ∀ (pre : List MonitorCycle),
    (∀ c ∈ pre, (cycleOutcome c).isOk = true) →
    monitor_registry pre = (pre.map writeOf, none)
  | [], _ => rfl
  | cyc :: rest, h => by
    have hc := h cyc (List.mem_cons_self _ _)
    cases ho : cycleOutcome cyc with
    | error e =>
      rw [ho] at hc
      simp [Except.isOk, Except.toBool] at hc
    | ok s =>
      simp only [monitor_registry, ho]
      rw [monitor_ok_of_all_ok rest (fun c hcc => h c (List.mem_cons_of_mem _ hcc))]
      simp [writeOf, ho]

/-- The first failing cycle exits the loop with its error; later cycles
never run. -/
theorem monitor_failfast : ∀ (pre post : List MonitorCycle) (cyc : MonitorCycle)
    (e : CliError), (∀ c ∈ pre, (cycleOutcome c).isOk = true) →
    cycleOutcome cyc = Except.error e →
    monitor_registry (pre ++ cyc :: post) = (pre.map writeOf, some e)
  | [], post, cyc, e, _, he => by simp [monitor_registry, he]
  | c0 :: rest, post, cyc, e, h, he => by
    have hc := h c0 (List.mem_cons_self _ _)
    cases ho : cycleOutcome c0 with
    | error e0 =>
      rw [ho] at hc
      simp [Except.isOk, Except.toBool] at hc
    | ok s =>
      simp only [List.cons_append, monitor_registry, ho]
      rw [show rest.append (cyc :: post) = rest ++ cyc :: post from rfl,
        monitor_failfast rest post cyc e (fun c hcc => h c (List.mem_cons_of_mem _ hcc)) he]
      simp [writeOf, ho]

/-- A successfully completed cycle wrote exactly the snapshot read on its
connection in that cycle. -/
theorem discoverF_of_cycle_ok (c : MonitorCycle) (h : (cycleOutcome c).isOk = true) :
    discover_servicesF c.conn = Except.ok (writeOf c) := by
  cases hm : c.msgFault with
  | some e => simp [cycleOutcome, hm, Except.isOk, Except.toBool] at h
  | none =>
    cases hd : discover_servicesF c.conn with
    | error e => simp [cycleOutcome, hm, hd, Except.isOk, Except.toBool] at h
    | ok s =>
      cases hw : c.writeFault with
      | some e => simp [cycleOutcome, hm, hd, hw, Except.isOk, Except.toBool] at h
      | none => simp [writeOf, cycleOutcome, hm, hd, hw]

/-- C6: over any finite trace of delivered notifications, each cycle up
to the first failure produces exactly one write whose content is the
snapshot read on that cycle's connection, and the first failing cycle —
whether the subscription read, the snapshot build or the file write
failed — terminates the loop with its error and a non-zero process exit
status, with no later cycle executed. -/
theorem C6_monitor (pre post : List MonitorCycle) (cyc : MonitorCycle) (e : CliError)
    (hpre : ∀ c ∈ pre, (cycleOutcome c).isOk = true) :
    monitor_registry pre = (pre.map writeOf, none) ∧
    (∀ c ∈ pre, discover_servicesF c.conn = Except.ok (writeOf c)) ∧
    (cycleOutcome cyc = Except.error e →
      monitor_registry (pre ++ cyc :: post) = (pre.map writeOf, some e) ∧
      mainExitCode (monitor_registry (pre ++ cyc :: post)).2 = 1) := by
  refine ⟨monitor_ok_of_all_ok pre hpre,
    fun c hc => discoverF_of_cycle_ok c (hpre c hc), fun he => ?_⟩
  have hm := monitor_failfast pre post cyc e hpre he
  refine ⟨hm, ?_⟩
  rw [hm]
  rfl

/-- A cycle that completes: notification delivered, snapshot rebuilt from
the fault-free connection, file written. -/
def cycGood : MonitorCycle :=
  { msgFault := none, conn := faultFree stW, writeFault := none }

/-- A cycle whose subscription read fails. -/
def cycBad : MonitorCycle :=
  { msgFault := some (RedisErr.connection "gone"), conn := faultFree stW,
    writeFault := none }

/-- C6 witness: one good cycle writes the snapshot once; the following
failing cycle stops the loop with its error. -/
theorem C6_witness :
    monitor_registry [cycGood, cycBad] =
      ([discover_services stW], some (CliError.RedisError (RedisErr.connection "gone"))) := by
  have h := (C6_monitor [cycGood] [] cycBad
    (CliError.RedisError (RedisErr.connection "gone")) (by decide)).2.2 rfl
  exact h.1

/-- C7: the discover output enumerates the registered services in
lexicographically sorted key order — the sorted key sequence is sorted and
the output is its image — and the output is the same for any two states
whose service sets are permutations of each other with the same per-service
data, i.e. independent of registration order and backend iteration
order. -/
theorem C7_sorted (st st' : RegistryState)
    (hperm : List.Perm st'.serviceSet st.serviceSet)
    (hlab : st'.labels = st.labels) (htgt : st'.targets = st.targets) :
    List.Sorted strLeP (sortKeys st.serviceSet) ∧
    discover_services st = (sortKeys st.serviceSet).map
      (fun key => { labels := st.labels key, targets := st.targets key }) ∧
    discover_services st' = discover_services st := by
  refine ⟨sortKeys_sorted _, rfl, ?_⟩
  unfold discover_services
  rw [sortKeys_eq_of_perm hperm, hlab, htgt]

/-- State registering `b` before `a`. -/
def stC7a : RegistryState :=
  { serviceSet := ["b", "a"], labels := fun _ => [], targets := fun _ => [] }

/-- State registering `a` before `b`. -/
def stC7b : RegistryState :=
  { serviceSet := ["a", "b"], labels := fun _ => [], targets := fun _ => [] }

/-- C7 witness: two backend enumeration orders of the same two services
give the same sorted discover output. -/
theorem C7_witness :
    List.Sorted strLeP (sortKeys stC7b.serviceSet) ∧
    discover_services stC7a = discover_services stC7b := by
  have h := C7_sorted stC7b stC7a (by decide) rfl rfl
  exact ⟨h.1, h.2.2⟩

/-- C8: a failed service-set read aborts discover with that error; with a
readable service set, the first failed labels/targets read (in sorted key
order) aborts discover with that error; and a successful discover returns
the complete snapshot — never a partial list. -/
theorem C8_fail_fast (c : FConn) :
    (∀ e, c.serviceSetFault = some e →
      discover_servicesF c = Except.error (CliError.RedisError e)) ∧
    (∀ e, c.serviceSetFault = none →
      firstFault c (sortKeys c.st.serviceSet) = some e →
      discover_servicesF c = Except.error (CliError.RedisError e)) ∧
    (∀ l, discover_servicesF c = Except.ok l → l = discover_services c.st) := by
  have h := discoverF_characterization c
  refine ⟨fun e he => ?_, fun e hn hf => ?_, fun l hl => ?_⟩
  · rw [h, he]
  · rw [h, hn]
    simp only [hf]
  · rw [h] at hl
    cases hs : c.serviceSetFault with
    | some e =>
      rw [hs] at hl
      simp at hl
    | none =>
      simp only [hs] at hl
      cases hf : firstFault c (sortKeys c.st.serviceSet) with
      | some e =>
        simp only [hf] at hl
        simp at hl
      | none =>
        simp only [hf, Except.ok.injEq] at hl
        exact hl.symm

/-- Connection whose service-set read fails. -/
def cC8 : FConn :=
  { st := stW, sismemberFault := none,
    serviceSetFault := some (RedisErr.protocol "bad reply"),
    labelsFault := fun _ => none, targetsFault := fun _ => none }

/-- C8 witness: discover on a connection whose service-set read fails
returns exactly that error. -/
theorem C8_witness :
    discover_servicesF cC8 =
      Except.error (CliError.RedisError (RedisErr.protocol "bad reply")) :=
  (C8_fail_fast cC8).1 (RedisErr.protocol "bad reply") rfl

/-- C9: on a service with at least two (distinct) targets and a matching
host argument, unregister succeeds, removes exactly the first matching
target, and changes nothing else: the labels of every service, the
service set, the non-selected targets of the service, and the targets of
every other service are untouched. -/
theorem C9_frame (st : RegistryState) (s p t0 : String)
    (hs : s ∈ st.serviceSet)
    (hfind : (st.targets s).find? (fun t => isCharPref p.data t.data) = some t0)
    (hlen : 2 ≤ (st.targets s).length) (hnd : (st.targets s).Nodup) :
    (unregister_instance st s (some p)).2 = none ∧
    isCharPref p.data t0.data = true ∧
    (unregister_instance st s (some p)).1.targets s = sremList (st.targets s) t0 ∧
    t0 ∉ (unregister_instance st s (some p)).1.targets s ∧
    ((unregister_instance st s (some p)).1.targets s).length + 1 =
      (st.targets s).length ∧
    (∀ t, t ∈ st.targets s → t ≠ t0 →
      t ∈ (unregister_instance st s (some p)).1.targets s) ∧
    (unregister_instance st s (some p)).1.labels = st.labels ∧
    (unregister_instance st s (some p)).1.serviceSet = st.serviceSet ∧
    (∀ k, k ≠ s → (unregister_instance st s (some p)).1.targets k = st.targets k) := by
  have hlen1 : (st.targets s).length ≠ 1 := by omega
  have hu : unregister_instance st s (some p) =
      ({ st with targets := fun k =>
          if k = s then sremList (st.targets k) t0 else st.targets k }, none) := by
    rw [unregister_instance, if_pos hs]
    simp only [unregisterWithTargets, hfind, if_neg hlen1]
  have htmem : t0 ∈ st.targets s := List.mem_of_find?_eq_some hfind
  rw [hu]
  have ht' : (({ st with targets := fun k =>
      if k = s then sremList (st.targets k) t0 else st.targets k } :
      RegistryState)).targets s = sremList (st.targets s) t0 := if_pos rfl
  have hpt : isCharPref p.data t0.data = true := by
    have h2 := List.find?_some hfind
    simpa using h2
  refine ⟨rfl, hpt, ht', ?_, ?_, ?_, rfl, rfl, fun k hk => if_neg hk⟩
  · rw [ht']
    simp [mem_sremList]
  · rw [ht']
    exact length_sremList hnd htmem
  · intro t htm htne
    rw [ht']
    exact mem_sremList.mpr ⟨htm, htne⟩

/-- C9 witness: removing `host2` from the two-target service `web` leaves
exactly the `host1` target, with labels and membership untouched. -/
theorem C9_witness :
    (unregister_instance stW2 "web" (some "host2")).2 = none ∧
    (unregister_instance stW2 "web" (some "host2")).1.targets "web" =
      ["host1:8080/metrics"] ∧
    (unregister_instance stW2 "web" (some "host2")).1.serviceSet = stW2.serviceSet := by
  have h := C9_frame stW2 "web" "host2" "host2:8080/metrics"
    (by decide) (by decide) (by decide) (by decide)
  refine ⟨h.1, ?_, h.2.2.2.2.2.2.2.1⟩
  rw [h.2.2.1]
  decide

/-- C10: a service key in the service set whose labels hash key or targets
set key is absent from the backend does not make discover fail: the reads
of absent keys return empty collections, discover succeeds, and the output
contains the entry for that service with its (possibly empty) labels and
targets — an absent facet key is indistinguishable from an empty one. -/
theorem C10_missing_facets (st : RegistryState) (s : String) (hs : s ∈ st.serviceSet) :
    discover_servicesF (faultFree st) = Except.ok (discover_services st) ∧
    ({ labels := st.labels s, targets := st.targets s } : RegisteredService)
      ∈ discover_services st :=
  ⟨discoverF_faultFree st, List.mem_map_of_mem _ (mem_sortKeys.mpr hs)⟩

/-- State whose service set names a service with no labels key and no
targets key in the backend. -/
def stC10 : RegistryState :=
  { serviceSet := ["ghost"], labels := fun _ => [], targets := fun _ => [] }

/-- C10 witness: discovering a registry whose sole service lacks both
per-service keys succeeds and reports the service with empty labels and
targets. -/
theorem C10_witness :
    discover_servicesF (faultFree stC10) = Except.ok (discover_services stC10) ∧
    ({ labels := [], targets := [] } : RegisteredService) ∈ discover_services stC10 := by
  have h := C10_missing_facets stC10 "ghost" (by decide)
  exact ⟨h.1, h.2⟩

end PromSD
